import Mathlib

/-!
Verification of the color-sampling core of `tuya-bulb-screen-color`
(`src/main.rs`).  The Rust `f32` color components are modelled by exact
rationals (`ℚ`): every constant the program compares against (10.0, 50.0,
180.0, 360.0) and every value the claims mention is exactly representable,
and the arithmetic involved (subtraction, absolute value, addition of
in-range values) is the same over `ℚ`.  Machine integers (`u32`) are
modelled as `ℕ` with explicit reduction modulo `2 ^ 32` where the source
performs `u32` arithmetic or an `as u32` cast.
-/

namespace TuyaBulb

/-- 2^32, the size of the Rust `u32` type. -/
def U32 : ℕ := 2 ^ 32

/-- The `colors_transform::Hsl` value as used by `main.rs`: hue,
saturation, lightness, all `f32` in the source, modelled as `ℚ`. -/
structure Hsl where
  hue : ℚ
  saturation : ℚ
  lightness : ℚ
deriving DecidableEq, Repr

/-- `color_diff` from `src/main.rs` lines 302-313: absolute hue difference
folded onto the circle (`360 - d` when `d > 180`), plus absolute saturation
and lightness differences. -/
def color_diff (color1 color2 : Hsl) : ℚ :=
  let hue_diff := |color1.hue - color2.hue|
  let hue_diff := if hue_diff > 180 then 360 - hue_diff else hue_diff
  let sat_diff := |color1.saturation - color2.saturation|
  let lum_diff := |color1.lightness - color2.lightness|
  hue_diff + sat_diff + lum_diff

/-- The hue delta exactly as the spec words it: `|h1 - h2|`, replaced by
`360 - |h1 - h2|` whenever it exceeds 180.  Stated separately from
`color_diff` so the claim can compare the code against the spec's formula. -/
def hueDeltaSpec (h1 h2 : ℚ) : ℚ :=
  if |h1 - h2| > 180 then 360 - |h1 - h2| else |h1 - h2|

/-- The fixed emission threshold bound in `color_picker` (line 120):
`let threshold = 10.0`. -/
def threshold : ℚ := 10

/-- Result of `device.set` inside the loop; the source discards it with
`let _ = device.set(payload, 0)`, so only success/failure is relevant. -/
inductive SendResult where
  | ok : SendResult
  | err : SendResult
deriving DecidableEq, Repr

/-- Observable outcome of one iteration of the `color_picker` loop body
(lines 117-134): whether `device.set` was attempted (it is attempted at
most once per iteration: there is a single call site and no retry), the
value of `last_color` at the end of the iteration, and whether the loop
proceeds to the next iteration. -/
structure IterOutcome where
  sent : Bool
  newLast : Hsl
  continues : Bool
deriving DecidableEq, Repr

/-- One iteration of the `color_picker` loop body: compute
`diff = color_diff(&last_color, &dominant_color)`; if `diff <= threshold`
only log, otherwise attempt the send and discard its result
(`let _ = device.set(payload, 0)`); then `last_color = dominant_color`
and sleep.  `sendResult` is the outcome `device.set` would produce. -/
def colorPickerIter (last_color dominant_color : Hsl) (sendResult : SendResult) :
    IterOutcome :=
  let diff := color_diff last_color dominant_color
  if diff ≤ threshold then
    { sent := false, newLast := dominant_color, continues := true }
  else
    -- the source writes `let _ = device.set(payload, 0)`: the result is dropped
    let _ := sendResult
    { sent := true, newLast := dominant_color, continues := true }

/-- `let mut last_color = Hsl::from(0.0, 0.0, 0.0)` (line 114). -/
def initial_last_color : Hsl := ⟨0, 0, 0⟩

/-- The value of `last_color` after running the loop body once per entry of
`steps`, each entry being the sampled dominant color of that iteration
together with the outcome `device.set` would have produced. -/
def runLastColor (steps : List (Hsl × SendResult)) : Hsl :=
  steps.foldl (fun last_color step => (colorPickerIter last_color step.1 step.2).newLast)
    initial_last_color

/-- Claim C1: for hues in `[0, 360)` and saturation/lightness in `[0, 100]`,
`color_diff` is non-negative and equals the spec's
`hue_delta + sat_delta + lum_delta` with the circular hue delta; in
particular hues 350 and 10 (equal saturation and lightness) are at
distance 20, not 340. -/
theorem color_diff_spec (color1 color2 : Hsl)
    (h1lo : 0 ≤ color1.hue) (h1hi : color1.hue < 360)
    (h2lo : 0 ≤ color2.hue) (h2hi : color2.hue < 360)
    (hs1 : 0 ≤ color1.saturation) (hs1h : color1.saturation ≤ 100)
    (hs2 : 0 ≤ color2.saturation) (hs2h : color2.saturation ≤ 100)
    (hl1 : 0 ≤ color1.lightness) (hl1h : color1.lightness ≤ 100)
    (hl2 : 0 ≤ color2.lightness) (hl2h : color2.lightness ≤ 100) :
    0 ≤ color_diff color1 color2 ∧
    color_diff color1 color2 =
      hueDeltaSpec color1.hue color2.hue +
        |color1.saturation - color2.saturation| +
        |color1.lightness - color2.lightness| ∧
    ∀ s l : ℚ, color_diff ⟨350, s, l⟩ ⟨10, s, l⟩ = 20 := by
  refine ⟨?_, ?_, ?_⟩
  · have habs : |color1.hue - color2.hue| < 360 :=
      abs_lt.mpr ⟨by linarith, by linarith⟩
    have hs : 0 ≤ |color1.saturation - color2.saturation| := abs_nonneg _
    have hl : 0 ≤ |color1.lightness - color2.lightness| := abs_nonneg _
    have hh : 0 ≤ |color1.hue - color2.hue| := abs_nonneg _
    unfold color_diff
    dsimp only
    split <;> linarith
  · rfl
  · intro s l
    norm_num [color_diff]

/-- Witness for `color_diff_spec` at the concrete pair (350, 20, 30) and
(10, 20, 30). -/
theorem color_diff_spec_witness :
    0 ≤ color_diff ⟨350, 20, 30⟩ ⟨10, 20, 30⟩ ∧
    color_diff ⟨350, 20, 30⟩ ⟨10, 20, 30⟩ =
      hueDeltaSpec (Hsl.hue ⟨350, 20, 30⟩) (Hsl.hue ⟨10, 20, 30⟩) +
        |Hsl.saturation ⟨350, 20, 30⟩ - Hsl.saturation ⟨10, 20, 30⟩| +
        |Hsl.lightness ⟨350, 20, 30⟩ - Hsl.lightness ⟨10, 20, 30⟩| ∧
    ∀ s l : ℚ, color_diff ⟨350, s, l⟩ ⟨10, s, l⟩ = 20 :=
  color_diff_spec ⟨350, 20, 30⟩ ⟨10, 20, 30⟩ (by norm_num) (by norm_num)
    (by norm_num) (by norm_num) (by norm_num) (by norm_num) (by norm_num)
    (by norm_num) (by norm_num) (by norm_num) (by norm_num) (by norm_num)

/-- Claim C2: an iteration sends a payload iff the distance to the previous
sample is strictly greater than the threshold 10.0; the pair at distance
exactly 10 does not emit, and a pair at distance 10.01 does. -/
theorem colorPickerIter_sent_iff (last_color dominant_color : Hsl)
    (sendResult : SendResult) :
    ((colorPickerIter last_color dominant_color sendResult).sent = true ↔
      color_diff last_color dominant_color > threshold) ∧
    color_diff ⟨0, 0, 0⟩ ⟨10, 0, 0⟩ = 10 ∧
    (colorPickerIter ⟨0, 0, 0⟩ ⟨10, 0, 0⟩ sendResult).sent = false ∧
    color_diff ⟨0, 0, 0⟩ ⟨10.01, 0, 0⟩ = 10.01 ∧
    (colorPickerIter ⟨0, 0, 0⟩ ⟨10.01, 0, 0⟩ sendResult).sent = true := by
  have habs : |(1001 : ℚ) / 100| = 1001 / 100 := abs_of_nonneg (by norm_num)
  refine ⟨?_, ?_, ?_, ?_, ?_⟩
  · unfold colorPickerIter
    dsimp only
    split <;> rename_i h
    · simpa using not_lt.mpr h
    · simpa using lt_of_not_le h
  · norm_num [color_diff]
  · norm_num [colorPickerIter, color_diff, threshold]
  · norm_num [color_diff, habs]
  · norm_num [colorPickerIter, color_diff, threshold, habs]

/-- Claim C6: `last_color` starts as black (0,0,0), every iteration ends by
storing the newly sampled color independently of the send outcome, and after
any run of iterations `last_color` is the most recently sampled color. -/
theorem last_color_tracks_samples :
    initial_last_color = ⟨0, 0, 0⟩ ∧
    (∀ last_color dominant_color sendResult,
      (colorPickerIter last_color dominant_color sendResult).newLast = dominant_color) ∧
    runLastColor [] = ⟨0, 0, 0⟩ ∧
    (∀ steps dominant_color sendResult,
      runLastColor (steps ++ [(dominant_color, sendResult)]) = dominant_color) := by
  refine ⟨rfl, ?_, rfl, ?_⟩
  · intro last_color dominant_color sendResult
    unfold colorPickerIter
    dsimp only
    split <;> rfl
  · intro steps dominant_color sendResult
    unfold runLastColor
    rw [List.foldl_append]
    simp only [List.foldl_cons, List.foldl_nil]
    unfold colorPickerIter
    dsimp only
    split <;> rfl

/-- Claim C7: a send failure changes nothing observable about the iteration:
the outcome with a failed send equals the outcome with a successful one,
`last_color` is still updated to the new sample, and the loop continues
(there is no retry within the iteration: `sent` records the at-most-one
attempt of the single call site). -/
theorem send_failure_ignored (last_color dominant_color : Hsl) :
    colorPickerIter last_color dominant_color SendResult.err =
      colorPickerIter last_color dominant_color SendResult.ok ∧
    (colorPickerIter last_color dominant_color SendResult.err).newLast =
      dominant_color ∧
    (colorPickerIter last_color dominant_color SendResult.err).continues = true := by
  unfold colorPickerIter
  dsimp only
  refine ⟨?_, ?_, ?_⟩ <;> split <;> rfl

/-- One lowercase hexadecimal digit, as produced by Rust's `LowerHex`
formatting: `0`-`9` then `a`-`f`. -/
def hexDigitChar (n : ℕ) : Char :=
  if n < 10 then Char.ofNat (48 + n) else Char.ofNat (87 + n)

/-- Most-significant-first hexadecimal digit expansion, fuel-indexed so it
is structurally recursive; `hexDigits` supplies enough fuel. -/
def hexDigitsCore : ℕ → ℕ → List Char → List Char
  | 0, _, acc => acc
  | fuel + 1, n, acc =>
    if n < 16 then hexDigitChar n :: acc
    else hexDigitsCore fuel (n / 16) (hexDigitChar (n % 16) :: acc)

/-- The lowercase hexadecimal digits of `n`, no leading zeros (`0` for 0). -/
def hexDigits (n : ℕ) : List Char := hexDigitsCore (n + 1) n []

/-- Rust's `format!("{:04x}", n)`: lowercase hexadecimal, left-padded with
zeros to a minimum width of four characters (wider values are not cut). -/
def format04x (n : ℕ) : String :=
  let ds := hexDigits n
  String.mk (List.replicate (4 - ds.length) '0' ++ ds)

/-- `hsv2tuya` from `src/main.rs` lines 144-151: the 4-digit hex fields of
the hue, of the saturation times ten, and of the value times ten,
concatenated.  The multiplications happen on `u32`, hence the reduction
modulo `U32` (irrelevant on this program's 0-100 ranges). -/
def hsv2tuya (hsv : ℕ × ℕ × ℕ) : String :=
  let (h, s, v) := hsv
  let tuya_h := format04x h
  let tuya_s := format04x (s * 10 % U32)
  let tuya_v := format04x (v * 10 % U32)
  tuya_h ++ tuya_s ++ tuya_v

/-- Rust's `as u32` cast applied to a non-negative-or-clamped `f32`,
modelled on `ℚ`: truncation toward zero (floor, for non-negative input),
saturating at 0 below and at `U32 - 1` above. -/
def f32_as_u32 (q : ℚ) : ℕ :=
  if q ≤ 0 then 0 else min (q.num.toNat / q.den) (U32 - 1)

/-- The JSON values this program ever stores in a payload are strings
(`json!("colour")`, `json!(mode)`, `json!(hsv2tuya(...))`). -/
inductive JsonValue where
  | str : String → JsonValue
deriving DecidableEq, Repr

/-- The `DataPointsKey` enum of `src/main.rs` lines 25-30. -/
inductive DataPointsKey where
  | ColorMode : DataPointsKey
  | Color : DataPointsKey
deriving DecidableEq, Repr

/-- `DataPointsKey::get` (lines 32-40): the wire string of each key. -/
def DataPointsKey.get : DataPointsKey → String
  | DataPointsKey.ColorMode => "21"
  | DataPointsKey.Color => "24"

/-- `rust_tuyapi::PayloadStruct` as this program fills it in.  The `dps`
hash map is modelled as an association list; the two keys the program ever
inserts are distinct, so the map and the list carry the same bindings. -/
structure PayloadStruct where
  dev_id : String
  gw_id : Option String
  uid : Option String
  t : Option ℕ
  dp_id : Option ℕ
  dps : Option (List (String × JsonValue))
deriving DecidableEq, Repr

/-- `create_color_picker_payload` from `src/main.rs` lines 254-281.  The
`SystemTime` reading is passed in as `current_time` (seconds); the source
truncates it with `as u32`. -/
def create_color_picker_payload (id : String) (hsl : Hsl) (current_time : ℕ) :
    PayloadStruct :=
  let lightness : ℕ := if hsl.lightness > 50 then 50 else 100
  let dps : List (String × JsonValue) :=
    [(DataPointsKey.ColorMode.get, JsonValue.str "colour"),
     (DataPointsKey.Color.get,
       JsonValue.str (hsv2tuya
         (f32_as_u32 hsl.hue, f32_as_u32 hsl.saturation, lightness)))]
  { dev_id := id, gw_id := some id, uid := none,
    t := some (current_time % U32), dp_id := none, dps := some dps }

/-- `create_color_mode_payload` from `src/main.rs` lines 283-300. -/
def create_color_mode_payload (id : String) (mode : String) (current_time : ℕ) :
    PayloadStruct :=
  { dev_id := id, gw_id := some id, uid := none,
    t := some (current_time % U32), dp_id := none,
    dps := some [(DataPointsKey.ColorMode.get, JsonValue.str mode)] }

/-- `hexDigitsCore` never produces more than `k` new digits on input below
`16 ^ k`, whatever the fuel. -/
theorem hexDigitsCore_length_le (fuel : ℕ) : ∀ (n : ℕ) (acc : List Char) (k : ℕ),
    0 < k → n < 16 ^ k → (hexDigitsCore fuel n acc).length ≤ k + acc.length := by
  induction fuel with
  | zero => intro n acc k hk _; simp [hexDigitsCore]
  | succ fuel ih =>
    intro n acc k hk hn
    rw [hexDigitsCore]
    split
    · simp; omega
    · rename_i h
      have hk2 : 2 ≤ k := by
        by_contra hc
        have : k = 1 := by omega
        subst this
        simp at hn
        omega
      have e : 16 ^ k = 16 ^ (k - 1) * 16 := by
        conv_lhs => rw [show k = (k - 1) + 1 by omega]
        rw [pow_succ]
      have hdiv : n / 16 < 16 ^ (k - 1) := by
        rw [e] at hn
        omega
      have := ih (n / 16) (hexDigitChar (n % 16) :: acc) (k - 1) (by omega) hdiv
      simp at this ⊢
      omega

/-- Inputs below `16 ^ 4` format to exactly four characters. -/
theorem format04x_length (n : ℕ) (hn : n < 65536) : (format04x n).length = 4 := by
  have h16 : n < 16 ^ 4 := by norm_num at *; omega
  have h := hexDigitsCore_length_le (n + 1) n [] 4 (by norm_num) h16
  simp only [List.length_nil] at h
  simp only [format04x, hexDigits, String.length, List.length_append,
    List.length_replicate]
  omega

/-- `f32_as_u32` stays below any positive natural bound its input is
below (the saturation cap `U32 - 1` only ever lowers the result). -/
theorem f32_as_u32_lt (q : ℚ) (b : ℕ) (hb : 0 < b) (hq : q < b) :
    f32_as_u32 q < b := by
  unfold f32_as_u32
  split
  · exact hb
  · rename_i h
    push_neg at h
    have hden : 0 < q.den := q.den_pos
    have hden0 : (q.den : ℚ) ≠ 0 := Nat.cast_ne_zero.mpr (by omega)
    have hqnum : (q.num : ℚ) = q * q.den := by
      have h0 := Rat.num_div_den q
      rw [div_eq_iff hden0] at h0
      exact h0
    have hq' : q * (q.den : ℚ) < (b : ℚ) * q.den := by
      apply mul_lt_mul_of_pos_right hq
      exact_mod_cast hden
    have h1 : q.num < (b : ℤ) * q.den := by
      have := hqnum ▸ hq'
      exact_mod_cast this
    have hnumpos : 0 < q.num := Rat.num_pos.mpr h
    have h3 : q.num.toNat < b * q.den := by omega
    calc min (q.num.toNat / q.den) (U32 - 1) ≤ q.num.toNat / q.den := min_le_left _ _
      _ < b := (Nat.div_lt_iff_lt_mul hden).mpr h3

/-- Claim C4: on hue 0-359 and saturation/value 0-100, `hsv2tuya` yields
the concatenation of the three 4-digit zero-padded lowercase hex fields
(hue, saturation times ten, value times ten), 12 characters in all;
`(0,0,0)` encodes to twelve zeros and `(359,100,100)` to `016703e803e8`. -/
theorem hsv2tuya_format (h s v : ℕ) (hh : h ≤ 359) (hs : s ≤ 100) (hv : v ≤ 100) :
    (hsv2tuya (h, s, v)).length = 12 ∧
    hsv2tuya (h, s, v) = format04x h ++ format04x (s * 10) ++ format04x (v * 10) ∧
    hsv2tuya (0, 0, 0) = "000000000000" ∧
    hsv2tuya (359, 100, 100) = "016703e803e8" := by
  have hU : U32 = 4294967296 := by norm_num [U32]
  have hs10 : s * 10 % U32 = s * 10 := Nat.mod_eq_of_lt (by omega)
  have hv10 : v * 10 % U32 = v * 10 := Nat.mod_eq_of_lt (by omega)
  have heq : hsv2tuya (h, s, v) =
      format04x h ++ format04x (s * 10) ++ format04x (v * 10) := by
    unfold hsv2tuya
    dsimp only
    rw [hs10, hv10]
  refine ⟨?_, heq, by decide, by decide⟩
  rw [heq]
  simp only [String.length_append]
  rw [format04x_length h (by omega), format04x_length (s * 10) (by omega),
    format04x_length (v * 10) (by omega)]

/-- Witness for `hsv2tuya_format` at hue 359, saturation 100, value 100. -/
theorem hsv2tuya_format_witness :
    (hsv2tuya (359, 100, 100)).length = 12 ∧
    hsv2tuya (359, 100, 100) =
      format04x 359 ++ format04x (100 * 10) ++ format04x (100 * 10) ∧
    hsv2tuya (0, 0, 0) = "000000000000" ∧
    hsv2tuya (359, 100, 100) = "016703e803e8" :=
  hsv2tuya_format 359 100 100 (by norm_num) (by norm_num) (by norm_num)

/-- Claim C3: the color payload's key-24 value is the device code whose
last field encodes the constant 50 (hex `01f4`) when the sampled lightness
exceeds 50, and the constant 100 (hex `03e8`) otherwise; the true
lightness never reaches the encoder, and lightness exactly 50 lands in the
100 branch. -/
theorem create_color_picker_payload_value_field (id : String) (hsl : Hsl)
    (current_time : ℕ) :
    ∃ code : String,
      (create_color_picker_payload id hsl current_time).dps =
        some [(DataPointsKey.ColorMode.get, JsonValue.str "colour"),
              (DataPointsKey.Color.get, JsonValue.str code)] ∧
      code = format04x (f32_as_u32 hsl.hue) ++
          format04x (f32_as_u32 hsl.saturation * 10 % U32) ++
          (if hsl.lightness > 50 then format04x (50 * 10 % U32)
            else format04x (100 * 10 % U32)) ∧
      format04x (50 * 10 % U32) = "01f4" ∧
      format04x (100 * 10 % U32) = "03e8" ∧
      (hsl.lightness = 50 →
        code = format04x (f32_as_u32 hsl.hue) ++
          format04x (f32_as_u32 hsl.saturation * 10 % U32) ++ "03e8") := by
  refine ⟨hsv2tuya (f32_as_u32 hsl.hue, f32_as_u32 hsl.saturation,
    if hsl.lightness > 50 then 50 else 100), ?_, ?_, by decide, by decide, ?_⟩
  · unfold create_color_picker_payload
    dsimp only
  · by_cases hl : hsl.lightness > 50 <;>
      simp only [hsv2tuya, hl, if_true, if_false, reduceIte]
  · intro hl50
    have hl : ¬ hsl.lightness > 50 := by rw [hl50]; norm_num
    simp only [hsv2tuya, hl, reduceIte]
    have : format04x (100 * 10 % U32) = "03e8" := by decide
    rw [← this]

/-- Claim C8: the color-update payload carries exactly two data points,
`"21" ↦ "colour"` and `"24" ↦` the 12-hex-digit device code, the
mode-switch payload exactly one, `"21" ↦` the target mode, and both carry
a gateway identifier equal to the device identifier. -/
theorem payload_entries (id : String) (hsl : Hsl) (current_time : ℕ)
    (mode : String) (hhue : hsl.hue < 360) (hsat : hsl.saturation ≤ 100) :
    ∃ dps code,
      (create_color_picker_payload id hsl current_time).dps = some dps ∧
      dps.length = 2 ∧
      dps.lookup "21" = some (JsonValue.str "colour") ∧
      dps.lookup "24" = some (JsonValue.str code) ∧
      code.length = 12 ∧
      (create_color_picker_payload id hsl current_time).gw_id =
        some (create_color_picker_payload id hsl current_time).dev_id ∧
      ∃ mdps,
        (create_color_mode_payload id mode current_time).dps = some mdps ∧
        mdps.length = 1 ∧
        mdps.lookup "21" = some (JsonValue.str mode) ∧
        (create_color_mode_payload id mode current_time).gw_id =
          some (create_color_mode_payload id mode current_time).dev_id := by
  have hU : U32 = 4294967296 := by norm_num [U32]
  have hhu : f32_as_u32 hsl.hue < 65536 :=
    lt_trans (f32_as_u32_lt hsl.hue 360 (by norm_num) hhue) (by norm_num)
  have hsa : f32_as_u32 hsl.saturation < 101 :=
    f32_as_u32_lt hsl.saturation 101 (by norm_num)
      (lt_of_le_of_lt hsat (by norm_num))
  have hsa10 : f32_as_u32 hsl.saturation * 10 % U32 =
      f32_as_u32 hsl.saturation * 10 := Nat.mod_eq_of_lt (by omega)
  have hcodelen : ∀ lv : ℕ, lv ≤ 100 →
      (hsv2tuya (f32_as_u32 hsl.hue, f32_as_u32 hsl.saturation, lv)).length = 12 := by
    intro lv hlv
    unfold hsv2tuya
    dsimp only
    have hlv10 : lv * 10 % U32 = lv * 10 := Nat.mod_eq_of_lt (by omega)
    simp only [String.length_append, hsa10, hlv10]
    rw [format04x_length _ hhu, format04x_length _ (by omega),
      format04x_length _ (by omega)]
  refine ⟨_, hsv2tuya (f32_as_u32 hsl.hue, f32_as_u32 hsl.saturation,
      if hsl.lightness > 50 then 50 else 100), rfl, rfl, ?_, ?_, ?_, rfl,
      ⟨_, rfl, rfl, ?_, rfl⟩⟩
  · simp [DataPointsKey.get, List.lookup]
  · simp [DataPointsKey.get, List.lookup]
  · by_cases hl : hsl.lightness > 50 <;> simp only [hl, reduceIte] <;>
      exact hcodelen _ (by norm_num)
  · simp [DataPointsKey.get, List.lookup]

/-- Witness for `payload_entries` on the black sample, device id `bulb`,
time 0, target mode `white`. -/
theorem payload_entries_witness :
    ∃ dps code,
      (create_color_picker_payload "bulb" ⟨0, 0, 0⟩ 0).dps = some dps ∧
      dps.length = 2 ∧
      dps.lookup "21" = some (JsonValue.str "colour") ∧
      dps.lookup "24" = some (JsonValue.str code) ∧
      code.length = 12 ∧
      (create_color_picker_payload "bulb" ⟨0, 0, 0⟩ 0).gw_id =
        some (create_color_picker_payload "bulb" ⟨0, 0, 0⟩ 0).dev_id ∧
      ∃ mdps,
        (create_color_mode_payload "bulb" "white" 0).dps = some mdps ∧
        mdps.length = 1 ∧
        mdps.lookup "21" = some (JsonValue.str "white") ∧
        (create_color_mode_payload "bulb" "white" 0).gw_id =
          some (create_color_mode_payload "bulb" "white" 0).dev_id :=
  payload_entries "bulb" ⟨0, 0, 0⟩ 0 "white" (by norm_num) (by norm_num)

/-- The loop of `swap_color_channels` (lines 213-215), translated over the
byte list: the source iterates `i` over `(0..buffer.len()).step_by(4)` and
pushes `buffer[i+2], buffer[i+1], buffer[i], buffer[i+3]`.  With at least
four bytes remaining all four reads are in bounds; with one, two or three
bytes remaining the read at `i+2` or `i+3` is past the end and the
indexing panics, modelled as `none`. -/
def swap_color_channels_loop : List ℕ → Option (List ℕ)
  | [] => some []
  | b0 :: b1 :: b2 :: b3 :: rest =>
    (swap_color_channels_loop rest).map fun tail => b2 :: b1 :: b0 :: b3 :: tail
  | _ => none

/-- `swap_color_channels` from `src/main.rs` lines 211-217.  `width` and
`height` only size the vector pre-allocation in the source
(`Vec::with_capacity(width * height * 4)`); the loop itself runs over the
whole buffer. -/
def swap_color_channels (buffer : List ℕ) (width height : ℕ) : Option (List ℕ) :=
  swap_color_channels_loop buffer

/-- The pure channel swap over complete 4-byte pixels; what the loop
returns when no read is out of bounds. -/
def swapPixels : List ℕ → List ℕ
  | b0 :: b1 :: b2 :: b3 :: rest => b2 :: b1 :: b0 :: b3 :: swapPixels rest
  | l => l

theorem swapPixels_length : ∀ l : List ℕ, (swapPixels l).length = l.length
  | [] => rfl
  | [_] => rfl
  | [_, _] => rfl
  | [_, _, _] => rfl
  | b0 :: b1 :: b2 :: b3 :: rest => by
    simp only [swapPixels, List.length_cons, swapPixels_length rest]

theorem swapPixels_involutive : ∀ l : List ℕ, swapPixels (swapPixels l) = l
  | [] => rfl
  | [_] => rfl
  | [_, _] => rfl
  | [_, _, _] => rfl
  | b0 :: b1 :: b2 :: b3 :: rest => by
    simp only [swapPixels, swapPixels_involutive rest]

theorem swap_loop_eq : ∀ l : List ℕ, l.length % 4 = 0 →
    swap_color_channels_loop l = some (swapPixels l)
  | [], _ => rfl
  | [_], h => by simp at h
  | [_, _], h => by simp at h
  | [_, _, _], h => by simp at h
  | b0 :: b1 :: b2 :: b3 :: rest, h => by
    have h4 : rest.length % 4 = 0 := by
      simp only [List.length_cons] at h
      omega
    simp only [swap_color_channels_loop, swapPixels, swap_loop_eq rest h4,
      Option.map]

/-- Skipping one complete pixel in an indexed lookup. -/
theorem getElem_cons4 (a b c d : ℕ) (l : List ℕ) (n : ℕ) :
    (a :: b :: c :: d :: l)[n + 4]? = l[n]? := by
  rw [show n + 4 = (n + 3) + 1 from rfl, List.getElem?_cons_succ,
    show n + 3 = (n + 2) + 1 from rfl, List.getElem?_cons_succ,
    show n + 2 = (n + 1) + 1 from rfl, List.getElem?_cons_succ,
    List.getElem?_cons_succ]

theorem swapPixels_getElem : ∀ (i : ℕ) (l : List ℕ), 4 * i + 3 < l.length →
    (swapPixels l)[4 * i]? = l[4 * i + 2]? ∧
    (swapPixels l)[4 * i + 1]? = l[4 * i + 1]? ∧
    (swapPixels l)[4 * i + 2]? = l[4 * i]? ∧
    (swapPixels l)[4 * i + 3]? = l[4 * i + 3]?
  | _, [], h => by simp at h
  | _, [_], h => by
      simp only [List.length_cons, List.length_nil] at h
      omega
  | _, [_, _], h => by
      simp only [List.length_cons, List.length_nil] at h
      omega
  | _, [_, _, _], h => by
      simp only [List.length_cons, List.length_nil] at h
      omega
  | 0, b0 :: b1 :: b2 :: b3 :: rest, _ => by
    simp [swapPixels]
  | i + 1, b0 :: b1 :: b2 :: b3 :: rest, h => by
    have hrest : 4 * i + 3 < rest.length := by
      simp only [List.length_cons] at h
      omega
    obtain ⟨ih0, ih1, ih2, ih3⟩ := swapPixels_getElem i rest hrest
    have e0 : 4 * (i + 1) = 4 * i + 4 := by ring
    have e1 : 4 * (i + 1) + 1 = 4 * i + 1 + 4 := by ring
    have e2 : 4 * (i + 1) + 2 = 4 * i + 2 + 4 := by ring
    have e3 : 4 * (i + 1) + 3 = 4 * i + 3 + 4 := by ring
    refine ⟨?_, ?_, ?_, ?_⟩
    · rw [e2, e0]
      simp only [swapPixels]
      rw [getElem_cons4, getElem_cons4]
      exact ih0
    · rw [e1]
      simp only [swapPixels]
      rw [getElem_cons4, getElem_cons4]
      exact ih1
    · rw [e2, e0]
      simp only [swapPixels]
      rw [getElem_cons4, getElem_cons4]
      exact ih2
    · rw [e3]
      simp only [swapPixels]
      rw [getElem_cons4, getElem_cons4]
      exact ih3

/-- Claim C5 counterexample: a buffer of 8 bytes with `width = height = 1`
satisfies the claim's precondition `len ≥ width*height*4`, yet the
function converts all 8 bytes — the trailing 4 are processed, not ignored,
and the output does not have `width*height*4` bytes. -/
theorem swap_color_channels_trailing_not_ignored :
    ([0, 1, 2, 3, 4, 5, 6, 7] : List ℕ).length ≥ 1 * 1 * 4 ∧
    swap_color_channels [0, 1, 2, 3, 4, 5, 6, 7] 1 1 =
      some [2, 1, 0, 3, 6, 5, 4, 7] ∧
    Option.map List.length (swap_color_channels [0, 1, 2, 3, 4, 5, 6, 7] 1 1) ≠
      some (1 * 1 * 4) := by
  refine ⟨by decide, by decide, by decide⟩

/-- Claim C5 as amended: the loop runs over the whole buffer, not over
`width*height` pixels.  For every buffer whose length is a multiple of 4
the output has exactly `buffer.length` bytes (equal to `width*height*4`
only when the input length is exactly that) and output pixel `i` is
`(ch2, ch1, ch0, ch3)` of input pixel `i` for every pixel of the buffer,
trailing ones included. -/
theorem swap_color_channels_whole_buffer (buffer : List ℕ) (width height : ℕ)
    (hlen : buffer.length % 4 = 0) :
    ∃ out, swap_color_channels buffer width height = some out ∧
      out.length = buffer.length ∧
      ∀ i, 4 * i + 3 < buffer.length →
        out[4 * i]? = buffer[4 * i + 2]? ∧
        out[4 * i + 1]? = buffer[4 * i + 1]? ∧
        out[4 * i + 2]? = buffer[4 * i]? ∧
        out[4 * i + 3]? = buffer[4 * i + 3]? := by
  refine ⟨swapPixels buffer, swap_loop_eq buffer hlen,
    swapPixels_length buffer, ?_⟩
  intro i hi
  exact swapPixels_getElem i buffer hi

/-- Witness for `swap_color_channels_whole_buffer` on an 8-byte buffer
with `width = height = 1`. -/
theorem swap_color_channels_whole_buffer_witness :
    ∃ out, swap_color_channels [10, 11, 12, 13, 14, 15, 16, 17] 1 1 = some out ∧
      out.length = ([10, 11, 12, 13, 14, 15, 16, 17] : List ℕ).length ∧
      ∀ i, 4 * i + 3 < ([10, 11, 12, 13, 14, 15, 16, 17] : List ℕ).length →
        out[4 * i]? = ([10, 11, 12, 13, 14, 15, 16, 17] : List ℕ)[4 * i + 2]? ∧
        out[4 * i + 1]? = ([10, 11, 12, 13, 14, 15, 16, 17] : List ℕ)[4 * i + 1]? ∧
        out[4 * i + 2]? = ([10, 11, 12, 13, 14, 15, 16, 17] : List ℕ)[4 * i]? ∧
        out[4 * i + 3]? = ([10, 11, 12, 13, 14, 15, 16, 17] : List ℕ)[4 * i + 3]? :=
  swap_color_channels_whole_buffer [10, 11, 12, 13, 14, 15, 16, 17] 1 1 (by decide)

/-- Claim C9: on buffers whose length is a multiple of 4 the channel swap
is an involution: swapping twice restores the original buffer byte for
byte. -/
theorem swap_color_channels_involutive (buffer : List ℕ) (width height : ℕ)
    (hlen : buffer.length % 4 = 0) :
    (swap_color_channels buffer width height).bind
      (fun out => swap_color_channels out width height) = some buffer := by
  have h2 : (swapPixels buffer).length % 4 = 0 := by
    rw [swapPixels_length]
    exact hlen
  unfold swap_color_channels
  rw [swap_loop_eq buffer hlen]
  show swap_color_channels_loop (swapPixels buffer) = some buffer
  rw [swap_loop_eq _ h2, swapPixels_involutive]

/-- Witness for `swap_color_channels_involutive` on a 4-byte buffer. -/
theorem swap_color_channels_involutive_witness :
    (swap_color_channels [1, 2, 3, 4] 5 7).bind
      (fun out => swap_color_channels out 5 7) = some [1, 2, 3, 4] :=
  swap_color_channels_involutive [1, 2, 3, 4] 5 7 (by decide)

theorem swap_loop_isSome : ∀ l : List ℕ,
    (swap_color_channels_loop l).isSome = true ↔ l.length % 4 = 0
  | [] => by simp [swap_color_channels_loop]
  | [b0] => by
    have hnone : swap_color_channels_loop [b0] = none := rfl
    simp [hnone]
  | [b0, b1] => by
    have hnone : swap_color_channels_loop [b0, b1] = none := rfl
    simp [hnone]
  | [b0, b1, b2] => by
    have hnone : swap_color_channels_loop [b0, b1, b2] = none := rfl
    simp [hnone]
  | b0 :: b1 :: b2 :: b3 :: rest => by
    have ih := swap_loop_isSome rest
    simp only [swap_color_channels_loop, List.length_cons]
    cases hr : swap_color_channels_loop rest with
    | none =>
      rw [hr] at ih
      simp at ih ⊢
      omega
    | some out =>
      rw [hr] at ih
      simp at ih ⊢
      omega

/-- Claim C10: the channel swap reads in bounds exactly on buffers whose
length is a multiple of 4; on any non-empty buffer of other length the
final 4-byte step indexes past the end (the `none` case, a panic in the
source). -/
theorem swap_color_channels_total_iff (buffer : List ℕ) (width height : ℕ) :
    (swap_color_channels buffer width height).isSome = true ↔
      buffer.length % 4 = 0 :=
  swap_loop_isSome buffer

end TuyaBulb
